import Mathlib

/-!
Verification of the encrypted-PHI data model and audit/redaction pipeline of the
ai-medical-billing-app repository.  The Python source is shallowly embedded:

* `PyVal` models the Python values flowing through the data layer (strings,
  numbers, booleans, None, datetimes, dicts, lists) plus a symbolic constructor
  `tok` for Fernet ciphertext strings: a well-formed Fernet token is an opaque
  string that records the key it was produced under and the plaintext it
  authenticates.  `fernet.decrypt` succeeds exactly on tokens made with the same
  key; every other string (and any non-token value) fails authentication.
* a SQLAlchemy model instance is embedded as an association list of attribute
  names to values (`Obj`); class-level metadata (columns, EncryptedField
  descriptors, `_phi_fields`) is a `PyClass` record, and `setattr`/`getattr`
  dispatch through the `EncryptedField` descriptor exactly as Python does.
* the functions `encrypt_phi`, `decrypt_phi`, `to_dict`, `update_from_dict`,
  `soft_delete` (app/models/base.py), `sanitize_log_data` and the audit-record
  construction of `HIPAACompliantLogger.audit` (app/utils/logging.py), and
  `AuditMixin.log_access` (app/models/base.py) are translated clause by clause.
-/

namespace MedBilling

/-- Python values manipulated by the data layer.  `tok key plain` is the
symbolic model of a well-formed Fernet ciphertext string: Fernet tokens are
self-describing and authenticated, so decryption under the producing key
recovers `plain` and decryption under any other key raises `InvalidToken`.
`dt iso` models a `datetime` object carrying its ISO-8601 rendering. -/
inductive PyVal where
  | none
  | bool (b : Bool)
  | int (n : Int)
  | str (s : String)
  | tok (key plain : String)
  | dt (iso : String)
  | dict (entries : List (String × PyVal))
  | list (elems : List PyVal)

/-- Python exceptions relevant to the codec.  The source raises the built-in
generic `ValueError` on every cryptographic failure; `cryptoError` is the
dedicated exception class the specification prescribes (a refinement
comparison point, modelled from the spec's words) — the source never raises
it, which is what claim C3 turns on. -/
inductive PyExc where
  | valueError (msg : String)
  | cryptoError (msg : String)
deriving DecidableEq

/-- Python truthiness (`if not data: ...`) for the embedded values.  A
well-formed Fernet token string is never empty, hence always truthy. -/
def truthy : PyVal → Bool
  | PyVal.none => false
  | PyVal.bool b => b
  | PyVal.int n => n != 0
  | PyVal.str s => s != ""
  | PyVal.tok _ _ => true
  | PyVal.dt _ => true
  | PyVal.dict d => !d.isEmpty
  | PyVal.list l => !l.isEmpty

/-- Python `str(value)`.  Only the `str` branch is exercised by the modelled
call sites (`EncryptedField.__set__` receives strings); the remaining branches
are a nominal rendering so the function is total. -/
def pyStr : PyVal → String
  | PyVal.str s => s
  | PyVal.int n => toString n
  | PyVal.bool b => if b then "True" else "False"
  | PyVal.none => "None"
  | PyVal.dt iso => iso
  | PyVal.tok k p => "fernet:" ++ k ++ ":" ++ p
  | PyVal.dict _ => "dict"
  | PyVal.list _ => "list"

/-- `BaseModel.encrypt_phi` (app/models/base.py, lines 42-55): an empty or
null input is returned unchanged (`if not data: return data`); otherwise the
Fernet cipher built from the process key encrypts the string.  The input is
`Option String` because the Python parameter is a `str` that callers may pass
as `None`.  In the symbolic model encryption under any key succeeds, matching
the source where the configured key is a valid Fernet key. -/
def encrypt_phi (key : String) (data : Option String) : PyVal :=
  match data with
  | Option.none => PyVal.none
  | some s => if s = "" then PyVal.str "" else PyVal.tok key s

/-- `BaseModel.decrypt_phi` (app/models/base.py, lines 57-70): an empty or
null input is returned unchanged; decrypting a token produced under the same
key yields the plaintext; any other input (token under a different key, or a
malformed/non-token value) makes the Fernet call raise, which the blanket
`except` converts to `ValueError("Failed to decrypt sensitive data")`. -/
def decrypt_phi (key : String) (encrypted_data : PyVal) : Except PyExc PyVal :=
  if truthy encrypted_data = false then Except.ok encrypted_data
  else
    match encrypted_data with
    | PyVal.tok k p =>
        if k = key then Except.ok (PyVal.str p)
        else Except.error (PyExc.valueError "Failed to decrypt sensitive data")
    | _ => Except.error (PyExc.valueError "Failed to decrypt sensitive data")

/-- Whether a decrypt result is the dedicated `CryptoError` the specification
prescribes (as opposed to the generic `ValueError` the source actually
raises). -/
def isCryptoError : Except PyExc PyVal → Bool
  | Except.error (PyExc.cryptoError _) => true
  | _ => false

/-- Whether a stored value is a Fernet ciphertext. -/
def isCiphertext : PyVal → Bool
  | PyVal.tok _ _ => true
  | _ => false

/-- A model instance: its attribute dictionary, as an association list from
attribute names to values (Python object attribute storage). -/
abbrev Obj := List (String × PyVal)

/-- Attribute read `getattr(obj, name, None)` at the storage level: the value
bound to the first matching name, if any. -/
def lookupAttr : Obj → String → Option PyVal
  | [], _ => Option.none
  | (k, v) :: rest, n => if k = n then some v else lookupAttr rest n

/-- Assignment `obj.name = v` at the storage level: replace the binding in
place if the name is present, append it otherwise (Python dict/attribute
assignment semantics, order-preserving). -/
def updateEntry : Obj → String → PyVal → Obj
  | [], n, v => [(n, v)]
  | (k, w) :: rest, n, v =>
      if k = n then (n, v) :: rest else (k, w) :: updateEntry rest n v

/-- Class-level metadata of a SQLAlchemy model: the mapped column names (what
`self.__table__.columns` iterates), the logical names bound to an
`EncryptedField` descriptor, the `_phi_fields` redaction list, and the
`__tablename__`. -/
structure PyClass where
  columns : List String
  encryptedFields : List String
  phiFields : List String
  tablename : String

/-- `EncryptedField.__set__` (app/models/base.py, lines 149-154): a non-null
value is stringified, encrypted with the process key and stored in the hidden
`<field>_encrypted` slot; `None` clears the hidden slot. -/
def EncryptedField.set (key : String) (o : Obj) (field_name : String) (value : PyVal) : Obj :=
  match value with
  | PyVal.none => updateEntry o (field_name ++ "_encrypted") PyVal.none
  | v => updateEntry o (field_name ++ "_encrypted") (encrypt_phi key (some (pyStr v)))

/-- `EncryptedField.__get__` (app/models/base.py, lines 140-147): read the
hidden `<field>_encrypted` slot (default `None`); if truthy, decrypt it
(which may raise), else return `None`. -/
def EncryptedField.get (key : String) (o : Obj) (field_name : String) : Except PyExc PyVal :=
  let encrypted_value := (lookupAttr o (field_name ++ "_encrypted")).getD PyVal.none
  if truthy encrypted_value then decrypt_phi key encrypted_value
  else Except.ok PyVal.none

/-- Python `setattr(self, name, v)` on a model instance: names bound to an
`EncryptedField` descriptor are intercepted by `EncryptedField.__set__`;
every other name is a plain attribute assignment. -/
def setattr_obj (cls : PyClass) (key : String) (o : Obj) (name : String) (v : PyVal) : Obj :=
  if cls.encryptedFields.contains name then EncryptedField.set key o name v
  else updateEntry o name v

/-- Python `hasattr(self, name)` on a model instance: true for the
`EncryptedField` descriptors, the mapped columns (class attributes), and any
instance attribute already set. -/
def hasattr_obj (cls : PyClass) (o : Obj) (name : String) : Bool :=
  cls.encryptedFields.contains name || cls.columns.contains name || (lookupAttr o name).isSome

/-- `BaseModel.to_dict` (app/models/base.py, lines 72-88): serialize every
mapped column (`self.__table__.columns`) with `datetime` values rendered in
ISO-8601; then, unless `include_phi` is set, replace each `_phi_fields` entry
that is present in the result with the `"[REDACTED]"` marker. -/
def to_dict (cls : PyClass) (o : Obj) (include_phi : Bool) : Obj :=
  let result := cls.columns.map fun c =>
    (c, match (lookupAttr o c).getD PyVal.none with
        | PyVal.dt iso => PyVal.str iso
        | v => v)
  if include_phi then result
  else
    cls.phiFields.foldl
      (fun res f =>
        if (lookupAttr res f).isSome then updateEntry res f (PyVal.str "[REDACTED]") else res)
      result

/-- One iteration of the `update_from_dict` loop (app/models/base.py, lines
92-94): set the attribute when `hasattr` holds, silently skip it otherwise. -/
def update_step (cls : PyClass) (key : String) (o : Obj) (kv : String × PyVal) : Obj :=
  if hasattr_obj cls o kv.1 then setattr_obj cls key o kv.1 kv.2 else o

/-- `BaseModel.update_from_dict` (app/models/base.py, lines 90-98): apply the
per-key loop, then refresh `updated_at`, then set `updated_by` when the given
`user_id` is truthy (non-null and non-empty). -/
def update_from_dict (cls : PyClass) (key : String) (o : Obj)
    (data : List (String × PyVal)) (user_id : Option String) (now : String) : Obj :=
  let o1 := data.foldl (update_step cls key) o
  let o2 := updateEntry o1 "updated_at" (PyVal.dt now)
  match user_id with
  | some u => if u = "" then o2 else updateEntry o2 "updated_by" (PyVal.str u)
  | Option.none => o2

/-- `BaseModel.soft_delete` (app/models/base.py, lines 100-105): set
`is_active = False`, refresh `updated_at`, and set `updated_by` when the
given `user_id` is truthy. -/
def soft_delete (o : Obj) (user_id : Option String) (now : String) : Obj :=
  let o1 := updateEntry o "is_active" (PyVal.bool false)
  let o2 := updateEntry o1 "updated_at" (PyVal.dt now)
  match user_id with
  | some u => if u = "" then o2 else updateEntry o2 "updated_by" (PyVal.str u)
  | Option.none => o2

/-- `key.lower()` for the ASCII field names the deny-list check compares
(defined over the character list so that it evaluates by reduction). -/
def asciiLower (s : String) : String := String.mk (s.data.map Char.toLower)

/-- The deny-list of PHI-suggestive field names of `sanitize_log_data`
(app/utils/logging.py, lines 20-31), matched against lower-cased keys. -/
def phi_fields_deny : List String :=
  ["ssn", "social_security_number", "social_security",
   "phone", "phone_number", "telephone",
   "email", "email_address",
   "address", "address_line_1", "address_line_2",
   "city", "state", "zip_code", "zipcode",
   "first_name", "last_name", "middle_name",
   "date_of_birth", "dob", "birth_date",
   "medical_record_number", "mrn",
   "patient_id", "member_id", "subscriber_id",
   "policy_number", "group_number"]

mutual

/-- `sanitize_log_data` (app/utils/logging.py, lines 16-45): for each entry,
a key on the deny-list (case-insensitively) is redacted; otherwise a dict
value is sanitized recursively, a list value has its dict elements sanitized,
and any other value passes through unchanged. -/
def sanitize_log_data : List (String × PyVal) → List (String × PyVal)
  | [] => []
  | (k, v) :: rest => (k, sanitize_entry k v) :: sanitize_log_data rest

/-- The per-entry branch of `sanitize_log_data`: the key check comes first,
so a deny-listed key is redacted whatever its value is. -/
def sanitize_entry (k : String) : PyVal → PyVal
  | PyVal.dict d =>
      if asciiLower k ∈ phi_fields_deny then PyVal.str "[REDACTED]"
      else PyVal.dict (sanitize_log_data d)
  | PyVal.list l =>
      if asciiLower k ∈ phi_fields_deny then PyVal.str "[REDACTED]"
      else PyVal.list (sanitize_items l)
  | v =>
      if asciiLower k ∈ phi_fields_deny then PyVal.str "[REDACTED]" else v

/-- The list comprehension of `sanitize_log_data` (line 41): sanitize the
elements that are dicts, keep every other element unchanged. -/
def sanitize_items : List PyVal → List PyVal
  | [] => []
  | PyVal.dict d :: rest => PyVal.dict (sanitize_log_data d) :: sanitize_items rest
  | v :: rest => v :: sanitize_items rest

end

mutual

/-- `json.dumps` restricted to what the audit call sites serialize.  String
escaping is omitted: the inputs exercised here contain no quote or control
characters. -/
def jsonDumps (entries : List (String × PyVal)) : String :=
  "\x7b" ++ jsonEntries entries ++ "\x7d"

/-- Comma-joined `"key": value` pairs of a JSON object body. -/
def jsonEntries : List (String × PyVal) → String
  | [] => ""
  | [(k, v)] => "\"" ++ k ++ "\": " ++ jsonVal v
  | (k, v) :: rest => "\"" ++ k ++ "\": " ++ jsonVal v ++ ", " ++ jsonEntries rest

/-- JSON rendering of a single value.  A `tok` renders as the literal token
string of the symbolic model; `dt` is unreachable at the modelled call sites
(real `json.dumps` rejects datetimes) and is given a nominal rendering. -/
def jsonVal : PyVal → String
  | PyVal.none => "null"
  | PyVal.bool b => if b then "true" else "false"
  | PyVal.int n => toString n
  | PyVal.str s => "\"" ++ s ++ "\""
  | PyVal.dt iso => "\"" ++ iso ++ "\""
  | PyVal.tok k p => "\"fernet:" ++ k ++ ":" ++ p ++ "\""
  | PyVal.dict d => jsonDumps d
  | PyVal.list l => "[" ++ jsonList l ++ "]"

/-- Comma-joined elements of a JSON array body. -/
def jsonList : List PyVal → String
  | [] => ""
  | [v] => jsonVal v
  | v :: rest => jsonVal v ++ ", " ++ jsonList rest

end

/-- Lift an optional string argument to the Python value it is passed as. -/
def optStr : Option String → PyVal
  | some s => PyVal.str s
  | Option.none => PyVal.none

/-- `HIPAACompliantLogger.audit` (app/utils/logging.py, lines 194-212): the
`audit_data` payload handed to both the audit logger and the regular logger,
with its keys in source order; `details` goes through `sanitize_log_data`,
`timestamp` is `datetime.utcnow().isoformat()`. -/
def audit_event (logger_name event_type : String) (details : List (String × PyVal))
    (user_id ip_address user_agent : Option String) (now : String) :
    List (String × PyVal) :=
  [("event_type", PyVal.str event_type),
   ("details", PyVal.dict (sanitize_log_data details)),
   ("user_id", optStr user_id),
   ("ip_address", optStr ip_address),
   ("user_agent", optStr user_agent),
   ("timestamp", PyVal.str now),
   ("logger_name", PyVal.str logger_name)]

/-- Modelled from the spec: `app/models/audit.py` is absent from the source
tree, so the `AuditLog` entity it declares is modelled as a record holding
exactly the fields that the call site in `AuditMixin.log_access`
(app/models/base.py, lines 115-123) passes to its constructor. -/
structure AuditLog where
  user_id : String
  table_name : String
  record_id : PyVal
  action : String
  details : Option String
  ip_address : PyVal
  user_agent : PyVal

/-- `AuditMixin.log_access` (app/models/base.py, lines 111-125): build an
`AuditLog` from the entity; `details` is `json.dumps(details)` when the
details dict is truthy (non-null, non-empty) and `None` otherwise — note the
raw details are serialized, with no `sanitize_log_data` call; the request
context attributes default to `None`. -/
def log_access (cls : PyClass) (o : Obj) (user_id action : String)
    (details : Option (List (String × PyVal))) : AuditLog :=
  { user_id := user_id
  , table_name := cls.tablename
  , record_id := (lookupAttr o "id").getD PyVal.none
  , action := action
  , details :=
      match details with
      | some d => if d.isEmpty then Option.none else some (jsonDumps d)
      | Option.none => Option.none
  , ip_address := (lookupAttr o "_current_ip").getD PyVal.none
  , user_agent := (lookupAttr o "_current_user_agent").getD PyVal.none }

/-- The mapped columns of the `patients` table (app/models/patient.py plus
the columns inherited from `BaseModel` in app/models/base.py, which were
created first and therefore sort first): note the PHI columns carry the
`_encrypted` suffix — the logical names are descriptors, not columns. -/
def patientColumns : List String :=
  ["id", "created_at", "updated_at", "created_by", "updated_by", "is_active", "uuid",
   "medical_record_number",
   "first_name_encrypted", "last_name_encrypted", "middle_name_encrypted",
   "social_security_number_encrypted", "date_of_birth_encrypted",
   "gender", "marital_status",
   "phone_encrypted", "email_encrypted",
   "emergency_contact_encrypted", "emergency_phone_encrypted",
   "address_line_1_encrypted", "address_line_2_encrypted",
   "city_encrypted", "state_encrypted", "zip_code_encrypted", "country_encrypted",
   "preferred_language", "race", "ethnicity",
   "is_vip", "is_deceased", "deceased_date",
   "preferred_communication", "allow_sms", "allow_email",
   "financial_class", "credit_score", "payment_preference"]

/-- The logical attribute names bound to an `EncryptedField` descriptor on
`Patient` (app/models/patient.py, lines 99-113). -/
def patientEncryptedFields : List String :=
  ["first_name", "last_name", "middle_name", "social_security_number", "date_of_birth",
   "phone", "email", "emergency_contact", "emergency_phone",
   "address_line_1", "address_line_2", "city", "state", "zip_code", "country"]

/-- `Patient._phi_fields` (app/models/patient.py, lines 92-96): the list the
redaction pass of `to_dict` consults — logical names, without the
`_encrypted` suffix. -/
def patientPhiFields : List String :=
  ["first_name", "last_name", "middle_name", "social_security_number",
   "date_of_birth", "phone", "email", "emergency_contact", "emergency_phone",
   "address_line_1", "address_line_2", "city", "state", "zip_code", "country"]

/-- Class metadata of the `Patient` model. -/
def patientCls : PyClass :=
  { columns := patientColumns
  , encryptedFields := patientEncryptedFields
  , phiFields := patientPhiFields
  , tablename := "patients" }

/-- `Patient(first_name="Jane", social_security_number="123-45-6789")`: the
declarative constructor assigns each keyword through `setattr` (hence through
the `EncryptedField` descriptors), then `BaseModel.__init__` assigns a fresh
UUID since none is set; the random UUID4 is stood in by a fixed token.
Column defaults are applied at INSERT time, so unset columns read `None`. -/
def jane_patient (key : String) : Obj :=
  let o0 : Obj := []
  let o1 := setattr_obj patientCls key o0 "first_name" (PyVal.str "Jane")
  let o2 := setattr_obj patientCls key o1 "social_security_number" (PyVal.str "123-45-6789")
  updateEntry o2 "uuid" (PyVal.str "9f1c2d34-5678-4abc-9def-000000000001")

/-- Whether a value is a scalar for `sanitize_log_data` purposes, i.e. hits
neither the `isinstance(value, dict)` nor the `isinstance(value, list)`
branch. -/
def isScalar : PyVal → Bool
  | PyVal.dict _ => false
  | PyVal.list _ => false
  | _ => true

theorem lookupAttr_updateEntry_self (l : Obj) (n : String) (v : PyVal) :
    lookupAttr (updateEntry l n v) n = some v := by
  induction l with
  | nil => simp [updateEntry, lookupAttr]
  | cons hd tl ih =>
    obtain ⟨k, w⟩ := hd
    by_cases h : k = n
    · simp [updateEntry, h, lookupAttr]
    · simp [updateEntry, h, lookupAttr, ih]

theorem lookupAttr_updateEntry_ne (l : Obj) (n m : String) (v : PyVal) (h : m ≠ n) :
    lookupAttr (updateEntry l n v) m = lookupAttr l m := by
  have hnm : ¬ n = m := fun h2 => h h2.symm
  induction l with
  | nil => simp [updateEntry, lookupAttr, hnm]
  | cons hd tl ih =>
    obtain ⟨k, w⟩ := hd
    by_cases h1 : k = n
    · subst h1
      simp [updateEntry, lookupAttr, hnm]
    · simp [updateEntry, h1, lookupAttr, ih]

theorem updateEntry_idem (l : Obj) (n : String) (v : PyVal) :
    updateEntry (updateEntry l n v) n v = updateEntry l n v := by
  induction l with
  | nil => simp [updateEntry]
  | cons hd tl ih =>
    obtain ⟨k, w⟩ := hd
    by_cases h : k = n
    · simp [updateEntry, h]
    · simp [updateEntry, h, ih]

theorem sanitize_log_data_keys (data : List (String × PyVal)) :
    (sanitize_log_data data).map Prod.fst = data.map Prod.fst := by
  induction data with
  | nil => simp [sanitize_log_data]
  | cons hd tl ih =>
    obtain ⟨k, v⟩ := hd
    simp [sanitize_log_data, ih]

theorem mem_sanitize_log_data (data : List (String × PyVal)) (k : String) (v : PyVal)
    (h : (k, v) ∈ data) : (k, sanitize_entry k v) ∈ sanitize_log_data data := by
  induction data with
  | nil => cases h
  | cons hd tl ih =>
    obtain ⟨k1, v1⟩ := hd
    rcases List.mem_cons.mp h with h1 | h1
    · cases h1
      simp [sanitize_log_data]
    · simp only [sanitize_log_data, List.mem_cons]
      exact Or.inr (ih h1)

theorem sanitize_entry_redacts (k : String) (v : PyVal)
    (h : asciiLower k ∈ phi_fields_deny) :
    sanitize_entry k v = PyVal.str "[REDACTED]" := by
  cases v <;> simp [sanitize_entry, h]

theorem sanitize_entry_scalar (k : String) (v : PyVal)
    (h : asciiLower k ∉ phi_fields_deny) (h2 : isScalar v = true) :
    sanitize_entry k v = v := by
  cases v <;> simp_all [sanitize_entry, isScalar]

theorem sanitize_entry_dict (k : String) (d : List (String × PyVal))
    (h : asciiLower k ∉ phi_fields_deny) :
    sanitize_entry k (PyVal.dict d) = PyVal.dict (sanitize_log_data d) := by
  simp [sanitize_entry, h]

theorem sanitize_entry_list (k : String) (l : List PyVal)
    (h : asciiLower k ∉ phi_fields_deny) :
    sanitize_entry k (PyVal.list l) = PyVal.list (sanitize_items l) := by
  simp [sanitize_entry, h]

/-- C3 counterexample: under mismatched keys the decrypt of the source raises
the generic built-in `ValueError` (message "Failed to decrypt sensitive
data"), not a dedicated `CryptoError` type, so the claim that a
distinguishable `CryptoError` — not a generic exception — is raised is false
at key1 = "key-1", key2 = "key-2", s = "secret". -/
theorem C3_counterexample :
    decrypt_phi "key-2" (encrypt_phi "key-1" (some "secret"))
        = Except.error (PyExc.valueError "Failed to decrypt sensitive data")
    ∧ isCryptoError (decrypt_phi "key-2" (encrypt_phi "key-1" (some "secret"))) = false
    ∧ "key-1" ≠ "key-2" ∧ "secret" ≠ "" :=
  ⟨rfl, rfl, by decide, by decide⟩

/-- C3 amended: for distinct keys and non-empty plaintext,
`decrypt(encrypt(s, key1), key2)` raises `ValueError("Failed to decrypt
sensitive data")` — a fixed, catchable, but generic built-in exception rather
than a dedicated `CryptoError` class — and the same `ValueError` is raised on
malformed (non-token) ciphertext; decrypt never silently returns a wrong
plaintext: the result is fully characterized below, succeeding only with the
original plaintext. -/
theorem C3_decrypt_fails_closed_with_valueerror :
    (∀ k1 k2 s : String,
      decrypt_phi k2 (encrypt_phi k1 (some s)) =
        (if s = "" then Except.ok (PyVal.str "")
         else if k1 = k2 then Except.ok (PyVal.str s)
         else Except.error (PyExc.valueError "Failed to decrypt sensitive data")))
    ∧ (∀ k c : String,
      decrypt_phi k (PyVal.str c) =
        (if c = "" then Except.ok (PyVal.str c)
         else Except.error (PyExc.valueError "Failed to decrypt sensitive data"))) := by
  constructor
  · intro k1 k2 s
    by_cases hs : s = ""
    · subst hs
      simp [encrypt_phi, decrypt_phi, truthy]
    · by_cases hk : k1 = k2
      · subst hk
        simp [encrypt_phi, decrypt_phi, truthy, hs]
      · simp [encrypt_phi, decrypt_phi, truthy, hs, hk]
  · intro k c
    by_cases hc : c = ""
    · subst hc
      simp [decrypt_phi, truthy]
    · simp [decrypt_phi, truthy, hc]

/-- C4: for every plaintext string and every key, `decrypt(encrypt(s)) = s`;
the empty-string and null sentinels are returned by `encrypt` unchanged,
without encrypting, and round-trip through `decrypt` unchanged as well. -/
theorem C4_encrypt_decrypt_roundtrip :
    (∀ key s : String, decrypt_phi key (encrypt_phi key (some s)) = Except.ok (PyVal.str s))
    ∧ (∀ key : String, encrypt_phi key (some "") = PyVal.str "")
    ∧ (∀ key : String, encrypt_phi key Option.none = PyVal.none)
    ∧ (∀ key : String, decrypt_phi key (PyVal.str "") = Except.ok (PyVal.str ""))
    ∧ (∀ key : String, decrypt_phi key PyVal.none = Except.ok PyVal.none) := by
  refine ⟨?_, ?_, ?_, ?_, ?_⟩
  · intro key s
    by_cases hs : s = ""
    · subst hs
      simp [encrypt_phi, decrypt_phi, truthy]
    · simp [encrypt_phi, decrypt_phi, truthy, hs]
  · intro key
    simp [encrypt_phi]
  · intro key
    rfl
  · intro key
    simp [decrypt_phi, truthy]
  · intro key
    rfl

/-- C5: `sanitize_log_data` redacts exactly the keys whose lower-cased name
is on the fixed PHI deny-list, recurses into nested dicts and into the dict
elements of lists, passes non-matching keys through with their value
unchanged, and preserves the key structure; in particular the
`ssn`/`note` example redacts `ssn` and leaves the content of `note`
untouched. -/
theorem C5_sanitize_log_data_spec :
    sanitize_log_data [("ssn", PyVal.str "123-45-6789"), ("note", PyVal.str "see ssn above")]
        = [("ssn", PyVal.str "[REDACTED]"), ("note", PyVal.str "see ssn above")]
    ∧ (∀ data : List (String × PyVal),
        (sanitize_log_data data).map Prod.fst = data.map Prod.fst)
    ∧ (∀ (data : List (String × PyVal)) (k : String) (v : PyVal),
        (k, v) ∈ data → asciiLower k ∈ phi_fields_deny →
        (k, PyVal.str "[REDACTED]") ∈ sanitize_log_data data)
    ∧ (∀ (data : List (String × PyVal)) (k : String) (v : PyVal),
        (k, v) ∈ data → asciiLower k ∉ phi_fields_deny → isScalar v = true →
        (k, v) ∈ sanitize_log_data data)
    ∧ (∀ (data : List (String × PyVal)) (k : String) (d : List (String × PyVal)),
        (k, PyVal.dict d) ∈ data → asciiLower k ∉ phi_fields_deny →
        (k, PyVal.dict (sanitize_log_data d)) ∈ sanitize_log_data data)
    ∧ (∀ (data : List (String × PyVal)) (k : String) (l : List PyVal),
        (k, PyVal.list l) ∈ data → asciiLower k ∉ phi_fields_deny →
        (k, PyVal.list (sanitize_items l)) ∈ sanitize_log_data data) := by
  refine ⟨rfl, sanitize_log_data_keys, ?_, ?_, ?_, ?_⟩
  · intro data k v h h1
    have h2 := mem_sanitize_log_data data k v h
    rwa [sanitize_entry_redacts k v h1] at h2
  · intro data k v h h1 h2
    have h3 := mem_sanitize_log_data data k v h
    rwa [sanitize_entry_scalar k v h1 h2] at h3
  · intro data k d h h1
    have h2 := mem_sanitize_log_data data k (PyVal.dict d) h
    rwa [sanitize_entry_dict k d h1] at h2
  · intro data k l h h1
    have h2 := mem_sanitize_log_data data k (PyVal.list l) h
    rwa [sanitize_entry_list k l h1] at h2

/-- C5 witness: the properties instantiated at concrete inputs — the `ssn`
key is redacted, the `note` key passes through. -/
theorem C5_sanitize_log_data_spec_witness :
    ("ssn", PyVal.str "[REDACTED]") ∈ sanitize_log_data [("ssn", PyVal.str "123-45-6789")]
    ∧ ("note", PyVal.str "see ssn above")
        ∈ sanitize_log_data [("note", PyVal.str "see ssn above")] :=
  ⟨C5_sanitize_log_data_spec.2.2.1 [("ssn", PyVal.str "123-45-6789")] "ssn"
      (PyVal.str "123-45-6789") (by simp) (by decide),
   C5_sanitize_log_data_spec.2.2.2.1 [("note", PyVal.str "see ssn above")] "note"
      (PyVal.str "see ssn above") (by simp) (by decide) rfl⟩

/-- C1: evaluation at the failing input Patient(first_name="Jane",
social_security_number="123-45-6789").  Reading `first_name` returns "Jane"
and the hidden storage is ciphertext (those parts hold), but `to_dict`
iterates the table columns — named `first_name_encrypted`, not `first_name` —
while `_phi_fields` lists the logical names, so the redaction loop never
matches: the output has no `first_name` key at all (instead of
"[REDACTED]" or "Jane"), and `include_phi` makes no difference. -/
theorem C1_patient_to_dict_redaction_never_fires :
    EncryptedField.get "K" (jane_patient "K") "first_name" = Except.ok (PyVal.str "Jane")
    ∧ lookupAttr (jane_patient "K") "first_name_encrypted" = some (PyVal.tok "K" "Jane")
    ∧ PyVal.tok "K" "Jane" ≠ PyVal.str "Jane"
    ∧ lookupAttr (to_dict patientCls (jane_patient "K") false) "first_name" = Option.none
    ∧ lookupAttr (to_dict patientCls (jane_patient "K") true) "first_name" = Option.none
    ∧ to_dict patientCls (jane_patient "K") false = to_dict patientCls (jane_patient "K") true
    ∧ lookupAttr (to_dict patientCls (jane_patient "K") false) "first_name_encrypted"
        = some (PyVal.tok "K" "Jane") :=
  ⟨rfl, rfl, by simp, rfl, rfl, rfl, rfl⟩

/-- C2: evaluation at the failing input.  `AuditMixin.log_access` serializes
its details payload with `json.dumps` on the raw dict — no `sanitize_log_data`
call — so the persisted details contain the un-redacted `ssn` value, while the
`HIPAACompliantLogger.audit` path does sanitize the same payload. -/
theorem C2_log_access_skips_sanitization :
    (log_access patientCls [] "u1" "read" (some [("ssn", PyVal.str "123-45-6789")])).details
        = some (jsonDumps [("ssn", PyVal.str "123-45-6789")])
    ∧ jsonDumps [("ssn", PyVal.str "123-45-6789")] = "\x7b\"ssn\": \"123-45-6789\"\x7d"
    ∧ sanitize_log_data [("ssn", PyVal.str "123-45-6789")] = [("ssn", PyVal.str "[REDACTED]")]
    ∧ (log_access patientCls [] "u1" "read" (some [("ssn", PyVal.str "123-45-6789")])).details
        ≠ some (jsonDumps (sanitize_log_data [("ssn", PyVal.str "123-45-6789")]))
    ∧ lookupAttr (audit_event "app" "phi_access" [("ssn", PyVal.str "123-45-6789")]
        (some "u1") Option.none Option.none "2024-05-01T00:00:00") "details"
        = some (PyVal.dict [("ssn", PyVal.str "[REDACTED]")]) := by
  have e1 : jsonDumps [("ssn", PyVal.str "123-45-6789")]
      = "\x7b\"ssn\": \"123-45-6789\"\x7d" := by
    simp [jsonDumps, jsonEntries, jsonVal]
  have e2 : jsonDumps (sanitize_log_data [("ssn", PyVal.str "123-45-6789")])
      = "\x7b\"ssn\": \"[REDACTED]\"\x7d" := by
    simp [jsonDumps, jsonEntries, jsonVal, sanitize_log_data, sanitize_entry,
      show asciiLower "ssn" ∈ phi_fields_deny from by decide]
  refine ⟨rfl, e1, rfl, ?_, rfl⟩
  have e3 : (log_access patientCls [] "u1" "read"
      (some [("ssn", PyVal.str "123-45-6789")])).details
      = some (jsonDumps [("ssn", PyVal.str "123-45-6789")]) := rfl
  rw [e3, e1, e2]
  decide

/-- C6: `update_from_dict` is a no-op (with no exception) on a key that does
not name a known attribute, sets a known plain attribute directly, sets a
PHI-backed attribute by re-encrypting through its descriptor, always
refreshes `updated_at`, and sets `updated_by` when a (truthy) actor is
given. -/
theorem C6_update_from_dict_spec (cls : PyClass) (key now : String) :
    (∀ (o : Obj) (k : String) (v : PyVal), hasattr_obj cls o k = false →
        update_step cls key o (k, v) = o)
    ∧ (∀ (o : Obj) (data : List (String × PyVal)) (uid : Option String),
        lookupAttr (update_from_dict cls key o data uid now) "updated_at"
          = some (PyVal.dt now))
    ∧ (∀ (o : Obj) (data : List (String × PyVal)) (u : String), u ≠ "" →
        lookupAttr (update_from_dict cls key o data (some u) now) "updated_by"
          = some (PyVal.str u))
    ∧ (∀ (o : Obj) (k : String) (v : PyVal), hasattr_obj cls o k = true →
        cls.encryptedFields.contains k = false →
        update_step cls key o (k, v) = updateEntry o k v)
    ∧ (∀ (o : Obj) (k s : String), cls.encryptedFields.contains k = true →
        update_step cls key o (k, PyVal.str s)
          = updateEntry o (k ++ "_encrypted") (encrypt_phi key (some s))) := by
  refine ⟨?_, ?_, ?_, ?_, ?_⟩
  · intro o k v h
    simp [update_step, h]
  · intro o data uid
    cases uid with
    | none => simp [update_from_dict, lookupAttr_updateEntry_self]
    | some u =>
      by_cases hu : u = ""
      · simp [update_from_dict, hu, lookupAttr_updateEntry_self]
      · have h1 : update_from_dict cls key o data (some u) now
            = updateEntry (updateEntry (data.foldl (update_step cls key) o)
                "updated_at" (PyVal.dt now)) "updated_by" (PyVal.str u) := by
          simp [update_from_dict, hu]
        rw [h1, lookupAttr_updateEntry_ne _ _ _ _ (by decide), lookupAttr_updateEntry_self]
  · intro o data u hu
    have h1 : update_from_dict cls key o data (some u) now
        = updateEntry (updateEntry (data.foldl (update_step cls key) o)
            "updated_at" (PyVal.dt now)) "updated_by" (PyVal.str u) := by
      simp [update_from_dict, hu]
    rw [h1, lookupAttr_updateEntry_self]
  · intro o k v h h2
    have hm : k ∉ cls.encryptedFields := by simpa using h2
    simp [update_step, h, setattr_obj, hm]
  · intro o k s h
    have hm : k ∈ cls.encryptedFields := by simpa using h
    have hh : hasattr_obj cls o k = true := by simp [hasattr_obj, hm]
    simp [update_step, hh, setattr_obj, hm, EncryptedField.set, pyStr]

/-- C6 witness: an undeclared key is skipped without effect and a provided
actor lands in `updated_by`, at concrete inputs. -/
theorem C6_update_from_dict_spec_witness :
    hasattr_obj patientCls [] "not_an_attribute" = false
    ∧ update_step patientCls "K" [] ("not_an_attribute", PyVal.str "x") = []
    ∧ ("u1" : String) ≠ ""
    ∧ lookupAttr (update_from_dict patientCls "K" [] [] (some "u1") "2024-05-01T00:00:00")
        "updated_by" = some (PyVal.str "u1") :=
  ⟨by decide,
   (C6_update_from_dict_spec patientCls "K" "2024-05-01T00:00:00").1 []
      "not_an_attribute" (PyVal.str "x") (by decide),
   by decide,
   (C6_update_from_dict_spec patientCls "K" "2024-05-01T00:00:00").2.2.1 [] [] "u1"
      (by decide)⟩

/-- C7: after `soft_delete(actor)` with a provided (truthy) actor,
`is_active` is false, `updated_by` is the actor, `updated_at` is refreshed,
and every other attribute — in particular `created_at`, `id` and the external
`uuid` reference — is unchanged; the operation only rebinds three fields and
never removes the record. -/
theorem C7_soft_delete_spec (o : Obj) (u now : String) (h : u ≠ "") :
    lookupAttr (soft_delete o (some u) now) "is_active" = some (PyVal.bool false)
    ∧ lookupAttr (soft_delete o (some u) now) "updated_by" = some (PyVal.str u)
    ∧ lookupAttr (soft_delete o (some u) now) "updated_at" = some (PyVal.dt now)
    ∧ (∀ k : String, k ≠ "is_active" → k ≠ "updated_at" → k ≠ "updated_by" →
        lookupAttr (soft_delete o (some u) now) k = lookupAttr o k)
    ∧ lookupAttr (soft_delete o (some u) now) "id" = lookupAttr o "id"
    ∧ lookupAttr (soft_delete o (some u) now) "uuid" = lookupAttr o "uuid" := by
  have h1 : soft_delete o (some u) now
      = updateEntry (updateEntry (updateEntry o "is_active" (PyVal.bool false))
          "updated_at" (PyVal.dt now)) "updated_by" (PyVal.str u) := by
    simp [soft_delete, h]
  refine ⟨?_, ?_, ?_, ?_, ?_, ?_⟩
  · rw [h1, lookupAttr_updateEntry_ne _ _ _ _ (by decide),
        lookupAttr_updateEntry_ne _ _ _ _ (by decide), lookupAttr_updateEntry_self]
  · rw [h1, lookupAttr_updateEntry_self]
  · rw [h1, lookupAttr_updateEntry_ne _ _ _ _ (by decide), lookupAttr_updateEntry_self]
  · intro k hk1 hk2 hk3
    rw [h1, lookupAttr_updateEntry_ne _ _ _ _ hk3, lookupAttr_updateEntry_ne _ _ _ _ hk2,
        lookupAttr_updateEntry_ne _ _ _ _ hk1]
  · rw [h1, lookupAttr_updateEntry_ne _ _ _ _ (by decide),
        lookupAttr_updateEntry_ne _ _ _ _ (by decide),
        lookupAttr_updateEntry_ne _ _ _ _ (by decide)]
  · rw [h1, lookupAttr_updateEntry_ne _ _ _ _ (by decide),
        lookupAttr_updateEntry_ne _ _ _ _ (by decide),
        lookupAttr_updateEntry_ne _ _ _ _ (by decide)]

/-- C7 witness: soft-deleting a concrete record with actor "admin" leaves
`created_at` unchanged. -/
theorem C7_soft_delete_spec_witness :
    ("admin" : String) ≠ ""
    ∧ lookupAttr (soft_delete [("id", PyVal.int 7),
        ("created_at", PyVal.dt "2024-01-01T00:00:00"), ("is_active", PyVal.bool true)]
        (some "admin") "2024-06-01T00:00:00") "created_at"
        = some (PyVal.dt "2024-01-01T00:00:00") := by
  refine ⟨by decide, ?_⟩
  have h := C7_soft_delete_spec [("id", PyVal.int 7),
      ("created_at", PyVal.dt "2024-01-01T00:00:00"), ("is_active", PyVal.bool true)]
      "admin" "2024-06-01T00:00:00" (by decide)
  rw [h.2.2.2.1 "created_at" (by decide) (by decide) (by decide)]
  rfl

/-- C8 counterexample: the payload `HIPAACompliantLogger.audit` persists at a
concrete input has keys event_type/details/user_id/ip_address/user_agent/
timestamp/logger_name — it contains neither `actor_id` nor `success`, so it
does not have the claimed bit-exact shape. -/
theorem C8_counterexample :
    "actor_id" ∉ (audit_event "app" "patient_access" [] Option.none Option.none Option.none
        "2024-05-01T00:00:00").map Prod.fst
    ∧ "success" ∉ (audit_event "app" "patient_access" [] Option.none Option.none Option.none
        "2024-05-01T00:00:00").map Prod.fst
    ∧ (audit_event "app" "patient_access" [] Option.none Option.none Option.none
        "2024-05-01T00:00:00").map Prod.fst
        ≠ ["event_type", "actor_id", "resource_type", "resource_id", "timestamp",
           "success", "details", "client_ip", "client_agent"] :=
  ⟨by decide, by decide, by decide⟩

/-- C8 amended: the record `HIPAACompliantLogger.audit` persists has exactly
the keys event_type, details (sanitized mapping), user_id, ip_address,
user_agent, timestamp (ISO-8601 string), logger_name, in that order; the
record `AuditMixin.log_access` persists is an AuditLog with user_id,
table_name, record_id, action, details (JSON string of the raw dict, or null
when absent/empty), ip_address, user_agent. -/
theorem C8_audit_record_actual_shape :
    (∀ (lname etype : String) (details : List (String × PyVal))
        (uid ip ua : Option String) (now : String),
      (audit_event lname etype details uid ip ua now).map Prod.fst
          = ["event_type", "details", "user_id", "ip_address", "user_agent",
             "timestamp", "logger_name"]
      ∧ lookupAttr (audit_event lname etype details uid ip ua now) "details"
          = some (PyVal.dict (sanitize_log_data details))
      ∧ lookupAttr (audit_event lname etype details uid ip ua now) "timestamp"
          = some (PyVal.str now))
    ∧ (∀ (cls : PyClass) (o : Obj) (u act : String)
        (d : Option (List (String × PyVal))),
      (log_access cls o u act d).table_name = cls.tablename
      ∧ (log_access cls o u act d).record_id = (lookupAttr o "id").getD PyVal.none
      ∧ (log_access cls o u act d).details
          = (match d with
             | some l => if l.isEmpty then Option.none else some (jsonDumps l)
             | Option.none => Option.none)) := by
  constructor
  · intro lname etype details uid ip ua now
    exact ⟨rfl, rfl, rfl⟩
  · intro cls o u act d
    exact ⟨rfl, rfl, rfl⟩

/-- C9: setting an encrypted attribute to null clears the hidden
`<field>_encrypted` slot to None, the logical value then reads as null, and a
second null-set is a no-op — idempotent, with no exception. -/
theorem C9_null_set_idempotent (key : String) (o : Obj) (f : String) :
    lookupAttr (EncryptedField.set key o f PyVal.none) (f ++ "_encrypted") = some PyVal.none
    ∧ EncryptedField.get key (EncryptedField.set key o f PyVal.none) f = Except.ok PyVal.none
    ∧ EncryptedField.set key (EncryptedField.set key o f PyVal.none) f PyVal.none
        = EncryptedField.set key o f PyVal.none := by
  refine ⟨?_, ?_, ?_⟩
  · simp [EncryptedField.set, lookupAttr_updateEntry_self]
  · simp [EncryptedField.get, EncryptedField.set, lookupAttr_updateEntry_self, truthy]
  · simp [EncryptedField.set, updateEntry_idem]

/-- C10: setting an encrypted attribute to the empty string stores the empty
string itself (not a ciphertext) in the hidden slot, because `encrypt_phi`
returns its falsy input unchanged; the subsequent read collapses it to None
rather than returning the empty string. -/
theorem C10_empty_string_collapses_to_null (key : String) (o : Obj) (f : String) :
    lookupAttr (EncryptedField.set key o f (PyVal.str "")) (f ++ "_encrypted")
        = some (PyVal.str "")
    ∧ isCiphertext ((lookupAttr (EncryptedField.set key o f (PyVal.str ""))
        (f ++ "_encrypted")).getD PyVal.none) = false
    ∧ EncryptedField.get key (EncryptedField.set key o f (PyVal.str "")) f
        = Except.ok PyVal.none
    ∧ PyVal.none ≠ PyVal.str "" := by
  have h1 : lookupAttr (EncryptedField.set key o f (PyVal.str "")) (f ++ "_encrypted")
      = some (PyVal.str "") := by
    simp [EncryptedField.set, pyStr, encrypt_phi, lookupAttr_updateEntry_self]
  refine ⟨h1, ?_, ?_, by simp⟩
  · rw [h1]
    rfl
  · simp [EncryptedField.get, h1, truthy]

end MedBilling
